import Mathlib

/- Verification development for the rust_parser_helper analyzer
(src/rust_parser_helper/src/main.rs).

The program parses one Rust source file with `syn`, walks the syntax tree
with a `Visit` implementation (`RustVisitor`), classifies the raw text
against framework marker substrings (`detect_contract_type`), and emits a
`ParseResult` report.  This file is a shallow embedding of that core:

* the output data model (`ParsedFunction`, `ParsedStruct`, ... `ParseResult`)
  is copied field by field from the Rust structs;
* the relevant fragment of syn's AST is modelled by the mutual inductives
  `Item` / `Stmt` / `ImplItem` / `TraitItem`; constructs the visitor never
  inspects (expressions, macros, generics, by-ref binders, field attributes)
  are carried as their already-rendered token text, since the program only
  ever turns them back into text via `quote!`;
* `quote::quote!(..).to_string()` is modelled by the `render*` functions,
  which join token snippets with single spaces and print brace groups as
  proc-macro2 does; in particular `quote!(#pat_type.ty)` and
  `quote!(#node.self_ty)` interpolate the whole node and then append the
  literal tokens `. ty` / `. self_ty` - the embedding reproduces exactly
  that;
* the grammar parser itself (`syn::parse_file`) is the spec's external
  black box: `parse_rust_file` takes its outcome as an `Except` argument;
* the `&mut self.result` mutation of the visitor becomes explicit state
  passing (`visit_item` and friends). -/

namespace Quard

/- ### Substring search, modelling Rust `str::contains` with a `&str` pattern -/

/-- Does `pat` occur at the very start of `hay`?  (List-of-chars level.) -/
def charsLead : List Char → List Char → Bool
  | [], _ => true
  | _ :: _, [] => false
  | c :: cs, d :: ds => c == d && charsLead cs ds

/-- Does `pat` occur anywhere in `hay`?  (List-of-chars level.) -/
def charsHasSub (pat : List Char) : List Char → Bool
  | [] => charsLead pat []
  | c :: rest => charsLead pat (c :: rest) || charsHasSub pat rest

/-- Rust `hay.contains(pat)`: case-sensitive substring containment. -/
def strContains (hay pat : String) : Bool :=
  charsHasSub pat.toList hay.toList

/- ### Output data model (main.rs lines 7-81) -/

/-- main.rs `ParsedParameter` (lines 20-25). -/
structure ParsedParameter where
  name : String
  param_type : String
  is_mutable : Bool
deriving DecidableEq, Repr

/-- main.rs `ParsedFunction` (lines 7-18). -/
structure ParsedFunction where
  name : String
  visibility : String
  parameters : List ParsedParameter
  return_type : Option String
  attributes : List String
  is_async : Bool
  is_unsafe : Bool
  line_start : Nat
  line_end : Nat
deriving DecidableEq, Repr

/-- main.rs `ParsedField` (lines 37-42). -/
structure ParsedField where
  name : String
  field_type : String
  visibility : String
deriving DecidableEq, Repr

/-- main.rs `ParsedStruct` (lines 27-35). -/
structure ParsedStruct where
  name : String
  visibility : String
  fields : List ParsedField
  attributes : List String
  line_start : Nat
  line_end : Nat
deriving DecidableEq, Repr

/-- main.rs `ParsedTrait` (lines 44-52). -/
structure ParsedTrait where
  name : String
  visibility : String
  methods : List String
  attributes : List String
  line_start : Nat
  line_end : Nat
deriving DecidableEq, Repr

/-- main.rs `ParsedImpl` (lines 54-61). -/
structure ParsedImpl where
  target_type : String
  trait_name : Option String
  methods : List String
  line_start : Nat
  line_end : Nat
deriving DecidableEq, Repr

/-- main.rs `ParsedUnsafeBlock` (lines 63-68). -/
structure ParsedUnsafeBlock where
  line_start : Nat
  line_end : Nat
  context : String
deriving DecidableEq, Repr

/-- main.rs `ParseResult` (lines 70-81): the full report. -/
structure ParseResult where
  functions : List ParsedFunction
  structs : List ParsedStruct
  traits : List ParsedTrait
  impl_blocks : List ParsedImpl
  unsafe_blocks : List ParsedUnsafeBlock
  attributes : List String
  uses : List String
  contract_type : String
  errors : List String
deriving DecidableEq, Repr

/- ### Signature classifier (main.rs `detect_contract_type`, lines 126-138)

In the source this is a method mutating `self.result.contract_type`; the
label computed from the raw text is this pure function. -/

/-- The classification label `detect_contract_type` stores, as a function of
the raw source text (main.rs lines 126-138, conditions in source order). -/
def detect_contract_type (source : String) : String :=
  if strContains source "#[ink::contract]" || strContains source "ink_lang" then "ink"
  else if strContains source "cosmwasm_std" || strContains source "InstantiateMsg" then "cosmwasm"
  else if strContains source "anchor_lang" || strContains source "#[program]" then "anchor"
  else if strContains source "near_sdk" || strContains source "#[near_bindgen]" then "near"
  else "generic"

/-- Marker set of the first signature (label "ink"), as tested by the code. -/
def ink_marked (s : String) : Bool :=
  strContains s "#[ink::contract]" || strContains s "ink_lang"

/-- Marker set of the second signature (label "cosmwasm"). -/
def cosmwasm_marked (s : String) : Bool :=
  strContains s "cosmwasm_std" || strContains s "InstantiateMsg"

/-- Marker set of the third signature (label "anchor"). -/
def anchor_marked (s : String) : Bool :=
  strContains s "anchor_lang" || strContains s "#[program]"

/-- Marker set of the fourth signature (label "near"). -/
def near_marked (s : String) : Bool :=
  strContains s "near_sdk" || strContains s "#[near_bindgen]"

/- ### Visibility and spans -/

/-- syn `Visibility`.  `restricted` carries the path text (`crate`, `super`,
`in some::path`) which `visibility_to_string` ignores, exactly as the code's
`Visibility::Restricted(_)` arm does. -/
inductive Visibility where
  | pub
  | restricted (path : String)
  | inherited
deriving DecidableEq, Repr

/-- main.rs `visibility_to_string` (lines 112-118). -/
def visibility_to_string (vis : Visibility) : String :=
  match vis with
  | .pub => "pub"
  | .restricted _ => "pub(restricted)"
  | .inherited => "private"

/-- main.rs `get_line_numbers` (lines 120-124): proc_macro2 spans carry no
line data on stable Rust, so the function returns the sentinel `(1, 1)`
unconditionally.  The span argument carries no information and is modelled
as `Unit`. -/
def get_line_numbers (_span : Unit) : Nat × Nat := (1, 1)

/-- main.rs `extract_attributes` (lines 106-110): each attribute is rendered
back to text with `quote!(#attr)`.  The model stores attributes as that
rendered text already, so extraction is the identity on the list. -/
def extract_attributes (attrs : List String) : List String := attrs

/- ### The syn AST fragment the visitor dispatches on

Types, paths, receiver shapes and non-identifier patterns are carried as
their rendered token text: the program only reads them through `quote!`.
`Pat.ident` keeps exactly the two components `visit_item_fn` reads from a
`Pat::Ident` (the identifier and the `mut` keyword). -/

/-- syn `Pat`, restricted to the split `visit_item_fn` makes:
`Pat::Ident` versus every other (destructuring) pattern. -/
inductive Pat where
  | ident (name : String) (mutab : Bool)
  | other (text : String)
deriving DecidableEq, Repr

/-- syn `FnArg`: a receiver (`self`, `&self`, ...) or a typed
`pattern : Type` argument. -/
inductive FnArg where
  | receiver (text : String)
  | typed (pat : Pat) (ty : String)
deriving DecidableEq, Repr

/-- syn `Signature`: the components `visit_item_fn` reads.  `output` is
`none` for `ReturnType::Default` and carries the rendered type text for
`ReturnType::Type`; `asyncness` / `unsafety` model `.is_some()` on the
corresponding modifier tokens. -/
structure FnSig where
  ident : String
  inputs : List FnArg
  output : Option String
  asyncness : Bool
  unsafety : Bool
deriving DecidableEq, Repr

/-- syn `Field`: `ident` is optional (present for named fields), and
`visit_item_struct` reads `ident`, `vis` and `ty`. -/
structure SynField where
  ident : Option String
  vis : Visibility
  ty : String
deriving DecidableEq, Repr

/-- syn `Fields`: the three shapes matched by `visit_item_struct`
(lines 186-209). -/
inductive Fields where
  | named (fs : List SynField)
  | unnamed (fs : List SynField)
  | unit
deriving DecidableEq, Repr

mutual
/-- syn `Item`, restricted to the kinds with a registered handler plus the
kinds the default traversal recurses through (`Item::Mod`) and an opaque
rest.  `itemImpl` carries the outer attribute texts (rendered into
`target_type` by the `quote!(#node.self_ty)` call even though no record
field stores them). -/
inductive Item where
  | itemFn (attrs : List String) (vis : Visibility) (sig : FnSig) (body : List Stmt) : Item
  | itemStruct (attrs : List String) (vis : Visibility) (ident : String) (fields : Fields) : Item
  | itemTrait (attrs : List String) (vis : Visibility) (ident : String) (items : List TraitItem) : Item
  | itemImpl (attrs : List String) (traitPath : Option String) (selfTy : String) (items : List ImplItem) : Item
  | itemUse (text : String) : Item
  | itemModDecl (ident : String) : Item
  | itemMod (ident : String) (items : List Item) : Item
  | itemOther (text : String) : Item

/-- syn `Stmt`: an item statement (which the default block traversal feeds
back into `visit_item`) or any other statement, opaque. -/
inductive Stmt where
  | stmtItem (item : Item) : Stmt
  | stmtOther (text : String) : Stmt

/-- syn `ImplItem`: a method (`ImplItem::Fn`, with its body) or any other
associated item (consts, types, ...), opaque. -/
inductive ImplItem where
  | implFn (attrs : List String) (vis : Visibility) (sig : FnSig) (body : List Stmt) : ImplItem
  | implOther (text : String) : ImplItem

/-- syn `TraitItem`: a required method, a method with a default body, or any
other member, opaque. -/
inductive TraitItem where
  | traitFn (attrs : List String) (sig : FnSig) : TraitItem
  | traitFnDefault (attrs : List String) (sig : FnSig) (body : List Stmt) : TraitItem
  | traitOther (text : String) : TraitItem
end

/-- syn `File`: shebang is irrelevant, inner attributes are carried but
yield no records (the visitor has no handler for them). -/
structure SynFile where
  attrs : List String
  items : List Item

/- ### quote! rendering (proc-macro2 token display)

`TokenStream::to_string` separates tokens with single spaces and prints a
brace group as `{ inner }` (with `{ }` when empty) and a paren group as
`(inner)`.  `joinTokens` joins non-empty snippets with single spaces. -/

/-- Join rendered token snippets with single spaces, dropping empties. -/
def joinTokens (ts : List String) : String :=
  String.intercalate " " (ts.filter (fun t => !t.isEmpty))

/-- Brace-group display of proc-macro2: `\x7b inner \x7d`, or `\x7b \x7d`
when empty. -/
def braceGroup (inner : String) : String :=
  if inner.isEmpty then "\x7b \x7d" else "\x7b " ++ inner ++ " \x7d"

/-- Paren-group display of proc-macro2: no inner padding. -/
def parenGroup (inner : String) : String := "(" ++ inner ++ ")"

/-- Token text of a visibility modifier (used only inside re-rendered
nodes; `pub(restricted)` is the record string, this is the source text). -/
def renderVis : Visibility → String
  | .pub => "pub"
  | .restricted p => "pub " ++ parenGroup p
  | .inherited => ""

/-- Token text of a pattern. -/
def renderPat : Pat → String
  | .ident name m => joinTokens [(if m then "mut" else ""), name]
  | .other t => t

/-- Token text of a `PatType` (`pattern : Type`), as `quote!(#pat_type)`
prints it. -/
def render_pat_type (pat : Pat) (ty : String) : String :=
  joinTokens [renderPat pat, ":", ty]

/-- Token text of one `FnArg`. -/
def renderFnArg : FnArg → String
  | .receiver t => t
  | .typed pat ty => render_pat_type pat ty

/-- Token text of a `Signature`. -/
def render_sig (sig : FnSig) : String :=
  joinTokens ([(if sig.asyncness then "async" else ""),
    (if sig.unsafety then "unsafe" else ""), "fn", sig.ident,
    parenGroup (String.intercalate " , " (sig.inputs.map renderFnArg))] ++
    (match sig.output with
     | some ty => ["->", ty]
     | none => []))

/-- Token text of one `Field`, as `quote!(#field)` prints it. -/
def renderField (f : SynField) : String :=
  joinTokens [renderVis f.vis,
    (match f.ident with
     | some name => joinTokens [name, ":", f.ty]
     | none => f.ty)]

/-- Token text of a `Fields` body (struct declaration tail). -/
def renderFieldsDecl : Fields → String
  | .named fs => braceGroup (String.intercalate " , " (fs.map renderField))
  | .unnamed fs => parenGroup (String.intercalate " , " (fs.map renderField)) ++ " ;"
  | .unit => ";"

mutual
/-- Token text of an `Item`, as `quote!(#item)` prints it. -/
def renderItem : Item → String
  | .itemFn attrs vis sig body =>
      joinTokens (attrs ++ [renderVis vis, render_sig sig, braceGroup (renderStmts body)])
  | .itemStruct attrs vis n fields =>
      joinTokens (attrs ++ [renderVis vis, "struct", n, renderFieldsDecl fields])
  | .itemTrait attrs vis n its =>
      joinTokens (attrs ++ [renderVis vis, "trait", n, braceGroup (renderTraitItems its)])
  | .itemImpl attrs tp selfTy its =>
      joinTokens (attrs ++ ["impl"] ++
        (match tp with
         | some p => [p, "for"]
         | none => []) ++ [selfTy, braceGroup (renderImplItems its)])
  | .itemUse t => t
  | .itemModDecl n => joinTokens ["mod", n, ";"]
  | .itemMod n its => joinTokens ["mod", n, braceGroup (renderItems its)]
  | .itemOther t => t

/-- Token text of an item sequence. -/
def renderItems : List Item → String
  | [] => ""
  | i :: rest => joinTokens [renderItem i, renderItems rest]

/-- Token text of a statement sequence (a block's inside). -/
def renderStmts : List Stmt → String
  | [] => ""
  | .stmtItem i :: rest => joinTokens [renderItem i, renderStmts rest]
  | .stmtOther t :: rest => joinTokens [t, renderStmts rest]

/-- Token text of an impl-member sequence. -/
def renderImplItems : List ImplItem → String
  | [] => ""
  | .implFn attrs vis sig body :: rest =>
      joinTokens [joinTokens (attrs ++ [renderVis vis, render_sig sig, braceGroup (renderStmts body)]),
        renderImplItems rest]
  | .implOther t :: rest => joinTokens [t, renderImplItems rest]

/-- Token text of a trait-member sequence. -/
def renderTraitItems : List TraitItem → String
  | [] => ""
  | .traitFn attrs sig :: rest =>
      joinTokens [joinTokens (attrs ++ [render_sig sig, ";"]), renderTraitItems rest]
  | .traitFnDefault attrs sig body :: rest =>
      joinTokens [joinTokens (attrs ++ [render_sig sig, braceGroup (renderStmts body)]),
        renderTraitItems rest]
  | .traitOther t :: rest => joinTokens [t, renderTraitItems rest]
end

/- ### Record construction (the bodies of the visit_* overrides) -/

/-- The closure of `visit_item_fn`'s `filter_map` (main.rs lines 146-157):
only `FnArg::Typed` whose pattern is `Pat::Ident` yields a parameter.
`param_type` is `quote!(#pat_type.ty).to_string()`: that interpolates the
whole `pat : Type` node and then appends the two tokens `.` `ty`. -/
def param_of_arg : FnArg → Option ParsedParameter
  | .typed pat ty =>
      match pat with
      | .ident name m =>
          some { name := name,
                 param_type := render_pat_type pat ty ++ " . ty",
                 is_mutable := m }
      | .other _ => none
  | .receiver _ => none

/-- The `ParsedFunction` built by `visit_item_fn` (main.rs lines 142-177). -/
def fn_record (attrs : List String) (vis : Visibility) (sig : FnSig) : ParsedFunction :=
  let lines := get_line_numbers ()
  { name := sig.ident,
    visibility := visibility_to_string vis,
    parameters := sig.inputs.filterMap param_of_arg,
    return_type := sig.output,
    attributes := extract_attributes attrs,
    is_async := sig.asyncness,
    is_unsafe := sig.unsafety,
    line_start := lines.1,
    line_end := lines.2 }

/-- The `ParsedField` list built by `visit_item_struct` (main.rs lines
186-209).  Named fields go through `filter_map` on the optional identifier;
unnamed fields are enumerated and named `field_<index>`.  `field_type` is
`quote!(#field.ty)`: the whole field's tokens followed by `.` `ty`. -/
def struct_fields : Fields → List ParsedField
  | .named fs =>
      fs.filterMap (fun f =>
        f.ident.map (fun ident =>
          { name := ident,
            field_type := renderField f ++ " . ty",
            visibility := visibility_to_string f.vis }))
  | .unnamed fs =>
      fs.enum.map (fun p =>
        { name := "field_" ++ toString p.1,
          field_type := renderField p.2 ++ " . ty",
          visibility := visibility_to_string p.2.vis })
  | .unit => []

/-- The `ParsedStruct` built by `visit_item_struct` (main.rs lines 211-218). -/
def struct_record (attrs : List String) (vis : Visibility) (n : String) (fields : Fields) :
    ParsedStruct :=
  let lines := get_line_numbers ()
  { name := n,
    visibility := visibility_to_string vis,
    fields := struct_fields fields,
    attributes := extract_attributes attrs,
    line_start := lines.1,
    line_end := lines.2 }

/-- The method-name list of `visit_item_trait` (main.rs lines 229-237):
only `TraitItem::Fn` members (with or without a default body) contribute. -/
def trait_methods : List TraitItem → List String
  | [] => []
  | .traitFn _ sig :: rest => sig.ident :: trait_methods rest
  | .traitFnDefault _ sig _ :: rest => sig.ident :: trait_methods rest
  | .traitOther _ :: rest => trait_methods rest

/-- The `ParsedTrait` built by `visit_item_trait` (main.rs lines 226-246). -/
def trait_record (attrs : List String) (vis : Visibility) (n : String) (its : List TraitItem) :
    ParsedTrait :=
  let lines := get_line_numbers ()
  { name := n,
    visibility := visibility_to_string vis,
    methods := trait_methods its,
    attributes := extract_attributes attrs,
    line_start := lines.1,
    line_end := lines.2 }

/-- The method-name list of `visit_item_impl` (main.rs lines 261-269):
only `ImplItem::Fn` members contribute. -/
def impl_methods : List ImplItem → List String
  | [] => []
  | .implFn _ _ sig _ :: rest => sig.ident :: impl_methods rest
  | .implOther _ :: rest => impl_methods rest

/-- The `ParsedImpl` built by `visit_item_impl` (main.rs lines 254-277).
`target_type` is `quote!(#node.self_ty).to_string()`: the tokens of the
whole impl block followed by `.` `self_ty`.  `trait_name` maps the trait
path through `quote!(#path)`, which the model carries as rendered text. -/
def impl_record (attrs : List String) (tp : Option String) (selfTy : String)
    (its : List ImplItem) : ParsedImpl :=
  let lines := get_line_numbers ()
  { target_type := renderItem (.itemImpl attrs tp selfTy its) ++ " . self_ty",
    trait_name := tp,
    methods := impl_methods its,
    line_start := lines.1,
    line_end := lines.2 }

/- ### The visitor traversal (impl Visit for RustVisitor, main.rs 141-300)

The `&mut self.result` state is passed explicitly.  Each override pushes
its record and then calls the default `syn::visit::visit_*` continuation,
which recurses into nested items: function bodies (via `visit_block`,
overridden at lines 293-299 to just continue), module contents, impl and
trait members and their bodies.  `ImplItem::Fn` / `TraitItem::Fn` members
are visited through `visit_impl_item_fn` / `visit_trait_item_fn`, which are
not overridden, so methods never reach `visit_item_fn`. -/

mutual
/-- Dispatch of `visit_item` on one item, with the overrides of main.rs. -/
def visit_item (st : ParseResult) : Item → ParseResult
  | .itemFn attrs vis sig body =>
      visit_stmts { st with functions := st.functions ++ [fn_record attrs vis sig] } body
  | .itemStruct attrs vis n fields =>
      { st with structs := st.structs ++ [struct_record attrs vis n fields] }
  | .itemTrait attrs vis n its =>
      visit_trait_items { st with traits := st.traits ++ [trait_record attrs vis n its] } its
  | .itemImpl attrs tp selfTy its =>
      visit_impl_items { st with impl_blocks := st.impl_blocks ++ [impl_record attrs tp selfTy its] } its
  | .itemUse t => { st with uses := st.uses ++ [t] }
  | .itemModDecl _ => st
  | .itemMod _ its => visit_items st its
  | .itemOther _ => st

/-- Default traversal of an item list (file root or module content). -/
def visit_items (st : ParseResult) : List Item → ParseResult
  | [] => st
  | i :: rest => visit_items (visit_item st i) rest

/-- Default traversal of a block's statements: item statements re-enter
`visit_item`, other statements yield nothing in this model. -/
def visit_stmts (st : ParseResult) : List Stmt → ParseResult
  | [] => st
  | .stmtItem i :: rest => visit_stmts (visit_item st i) rest
  | .stmtOther _ :: rest => visit_stmts st rest

/-- Default traversal of impl members: a method's body is visited (its
nested item statements re-enter `visit_item`), nothing is recorded. -/
def visit_impl_items (st : ParseResult) : List ImplItem → ParseResult
  | [] => st
  | .implFn _ _ _ body :: rest => visit_impl_items (visit_stmts st body) rest
  | .implOther _ :: rest => visit_impl_items st rest

/-- Default traversal of trait members: only a default body is visited. -/
def visit_trait_items (st : ParseResult) : List TraitItem → ParseResult
  | [] => st
  | .traitFn _ _ :: rest => visit_trait_items st rest
  | .traitFnDefault _ _ body :: rest => visit_trait_items (visit_stmts st body) rest
  | .traitOther _ :: rest => visit_trait_items st rest
end

/-- `visit_file`: the default `Visit::visit_file` visits the file attributes
(no records) and then every top-level item. -/
def visit_file (st : ParseResult) (f : SynFile) : ParseResult :=
  visit_items st f.items

/-- The report `RustVisitor::new` starts from (main.rs lines 88-104): all
lists empty, then `detect_contract_type(source)` fills the label. -/
def RustVisitor_new (source : String) : ParseResult :=
  let result : ParseResult :=
    { functions := [], structs := [], traits := [], impl_blocks := [],
      unsafe_blocks := [], attributes := [], uses := [],
      contract_type := "", errors := [] }
  { result with contract_type := detect_contract_type source }

/-- main.rs `parse_rust_file` (lines 302-327).  Reading the file is I/O of
the excluded CLI layer; `syn::parse_file` is the spec's black-box Grammar
Parser, so its outcome arrives as the `Except` argument.  On success the
code builds the visitor (which classifies), classifies once more
(idempotent) and walks the tree; on failure it returns the fixed report
with the `"unknown"` label and one prefixed error entry. -/
def parse_rust_file (source : String) : Except String SynFile → ParseResult
  | Except.ok ast =>
      let visitor := RustVisitor_new source
      let visitor := { visitor with contract_type := detect_contract_type source }
      visit_file visitor ast
  | Except.error e =>
      { functions := [], structs := [], traits := [], impl_blocks := [],
        unsafe_blocks := [], attributes := [], uses := [],
        contract_type := "unknown", errors := ["Parse error: " ++ e] }

/- ### Pure record collection: the traversal as a catamorphism

`rec_item` lists, in preorder, exactly the records the overrides push; the
theorem `visit_item_push` below proves that the stateful visitor equals
this pure collection appended to the incoming state. -/

/-- The five record lists a traversal appends to the report. -/
structure Records where
  functions : List ParsedFunction
  structs : List ParsedStruct
  traits : List ParsedTrait
  impl_blocks : List ParsedImpl
  uses : List String
deriving DecidableEq, Repr

/-- No records. -/
def Records.empty : Records :=
  { functions := [], structs := [], traits := [], impl_blocks := [], uses := [] }

/-- Concatenation of record collections, list by list. -/
def Records.app (a b : Records) : Records :=
  { functions := a.functions ++ b.functions,
    structs := a.structs ++ b.structs,
    traits := a.traits ++ b.traits,
    impl_blocks := a.impl_blocks ++ b.impl_blocks,
    uses := a.uses ++ b.uses }

/-- Append a record collection to a report's five populated lists; the
other fields (unsafe_blocks, attributes, contract_type, errors) stay. -/
def push (st : ParseResult) (r : Records) : ParseResult :=
  { st with functions := st.functions ++ r.functions,
            structs := st.structs ++ r.structs,
            traits := st.traits ++ r.traits,
            impl_blocks := st.impl_blocks ++ r.impl_blocks,
            uses := st.uses ++ r.uses }

mutual
/-- The records one item contributes, in traversal (preorder) order. -/
def rec_item : Item → Records
  | .itemFn attrs vis sig body =>
      Records.app { Records.empty with functions := [fn_record attrs vis sig] } (rec_stmts body)
  | .itemStruct attrs vis n fields =>
      { Records.empty with structs := [struct_record attrs vis n fields] }
  | .itemTrait attrs vis n its =>
      Records.app { Records.empty with traits := [trait_record attrs vis n its] } (rec_trait_items its)
  | .itemImpl attrs tp selfTy its =>
      Records.app { Records.empty with impl_blocks := [impl_record attrs tp selfTy its] } (rec_impl_items its)
  | .itemUse t => { Records.empty with uses := [t] }
  | .itemModDecl _ => Records.empty
  | .itemMod _ its => rec_items its
  | .itemOther _ => Records.empty

/-- The records of an item sequence. -/
def rec_items : List Item → Records
  | [] => Records.empty
  | i :: rest => Records.app (rec_item i) (rec_items rest)

/-- The records contributed from inside a block. -/
def rec_stmts : List Stmt → Records
  | [] => Records.empty
  | .stmtItem i :: rest => Records.app (rec_item i) (rec_stmts rest)
  | .stmtOther _ :: rest => rec_stmts rest

/-- The records contributed from inside an impl body (only from item
statements nested in method bodies). -/
def rec_impl_items : List ImplItem → Records
  | [] => Records.empty
  | .implFn _ _ _ body :: rest => Records.app (rec_stmts body) (rec_impl_items rest)
  | .implOther _ :: rest => rec_impl_items rest

/-- The records contributed from inside a trait body. -/
def rec_trait_items : List TraitItem → Records
  | [] => Records.empty
  | .traitFn _ _ :: rest => rec_trait_items rest
  | .traitFnDefault _ _ body :: rest => Records.app (rec_stmts body) (rec_trait_items rest)
  | .traitOther _ :: rest => rec_trait_items rest
end

/- ### Counting function declarations -/

mutual
/-- How many `Item::Fn` nodes the traversal dispatches to `visit_item_fn`:
free functions at any nesting depth (modules, bodies), but not impl or
trait methods. -/
def fn_count_item : Item → Nat
  | .itemFn _ _ _ body => 1 + fn_count_stmts body
  | .itemStruct _ _ _ _ => 0
  | .itemTrait _ _ _ its => fn_count_trait_items its
  | .itemImpl _ _ _ its => fn_count_impl_items its
  | .itemUse _ => 0
  | .itemModDecl _ => 0
  | .itemMod _ its => fn_count_items its
  | .itemOther _ => 0

/-- Count over an item sequence. -/
def fn_count_items : List Item → Nat
  | [] => 0
  | i :: rest => fn_count_item i + fn_count_items rest

/-- Count over a block's statements. -/
def fn_count_stmts : List Stmt → Nat
  | [] => 0
  | .stmtItem i :: rest => fn_count_item i + fn_count_stmts rest
  | .stmtOther _ :: rest => fn_count_stmts rest

/-- Count over impl members (only items nested in method bodies). -/
def fn_count_impl_items : List ImplItem → Nat
  | [] => 0
  | .implFn _ _ _ body :: rest => fn_count_stmts body + fn_count_impl_items rest
  | .implOther _ :: rest => fn_count_impl_items rest

/-- Count over trait members (only items nested in default bodies). -/
def fn_count_trait_items : List TraitItem → Nat
  | [] => 0
  | .traitFn _ _ :: rest => fn_count_trait_items rest
  | .traitFnDefault _ _ body :: rest => fn_count_stmts body + fn_count_trait_items rest
  | .traitOther _ :: rest => fn_count_trait_items rest
end

mutual
/-- Modelled from the claim's words (C3): the number of function
declarations in the source, "including function declarations nested inside
implementation blocks, modules, and interface bodies" - so impl methods
and trait methods count here, unlike in `fn_count_item`. -/
def claim_fn_count_item : Item → Nat
  | .itemFn _ _ _ body => 1 + claim_fn_count_stmts body
  | .itemStruct _ _ _ _ => 0
  | .itemTrait _ _ _ its => claim_fn_count_trait_items its
  | .itemImpl _ _ _ its => claim_fn_count_impl_items its
  | .itemUse _ => 0
  | .itemModDecl _ => 0
  | .itemMod _ its => claim_fn_count_items its
  | .itemOther _ => 0

/-- Claim-side count over an item sequence. -/
def claim_fn_count_items : List Item → Nat
  | [] => 0
  | i :: rest => claim_fn_count_item i + claim_fn_count_items rest

/-- Claim-side count over a block's statements. -/
def claim_fn_count_stmts : List Stmt → Nat
  | [] => 0
  | .stmtItem i :: rest => claim_fn_count_item i + claim_fn_count_stmts rest
  | .stmtOther _ :: rest => claim_fn_count_stmts rest

/-- Claim-side count over impl members: each method is one function
declaration. -/
def claim_fn_count_impl_items : List ImplItem → Nat
  | [] => 0
  | .implFn _ _ _ body :: rest => 1 + claim_fn_count_stmts body + claim_fn_count_impl_items rest
  | .implOther _ :: rest => claim_fn_count_impl_items rest

/-- Claim-side count over trait members: each method is one function
declaration. -/
def claim_fn_count_trait_items : List TraitItem → Nat
  | [] => 0
  | .traitFn _ _ :: rest => 1 + claim_fn_count_trait_items rest
  | .traitFnDefault _ _ body :: rest => 1 + claim_fn_count_stmts body + claim_fn_count_trait_items rest
  | .traitOther _ :: rest => claim_fn_count_trait_items rest
end

/-- The names of the simple identifier-bound parameters of a signature, in
declaration order (receivers and destructuring patterns omitted). -/
def ident_param_names (inputs : List FnArg) : List String :=
  inputs.filterMap (fun a =>
    match a with
    | .typed (.ident n _) _ => some n
    | _ => none)

/- ### Concrete fixtures for witnesses and counterexamples -/

/-- Signature of `fn get_balance(&self, account: AccountId) -> Balance`
(the spec's end-to-end scenario A). -/
def get_balance_sig : FnSig :=
  { ident := "get_balance",
    inputs := [FnArg.receiver "& self", FnArg.typed (Pat.ident "account" false) "AccountId"],
    output := some "Balance",
    asyncness := false,
    unsafety := false }

/-- `fn bar() {}` with no modifiers. -/
def bar_sig : FnSig :=
  { ident := "bar", inputs := [], output := none, asyncness := false, unsafety := false }

/-- `impl Foo { fn bar() {} }`: one inherent impl whose only member is a
method; it contains one function declaration in the claim's sense and zero
free `Item::Fn` nodes. -/
def impl_only_file : SynFile :=
  { attrs := [],
    items := [Item.itemImpl [] none "Foo" [ImplItem.implFn [] Visibility.inherited bar_sig []]] }

/-- A file whose single item is the scenario-A function. -/
def one_fn_file : SynFile :=
  { attrs := [],
    items := [Item.itemFn [] Visibility.inherited get_balance_sig []] }

/-- The empty syntax tree (an empty source file parses to this). -/
def empty_file : SynFile := { attrs := [], items := [] }

/- ### Basic lemmas about pushing record collections -/

/-- Pushing no records leaves the report unchanged. -/
theorem push_empty (st : ParseResult) : push st Records.empty = st := by
  simp [push, Records.empty]

/-- Pushing twice is pushing the concatenation. -/
theorem push_push (st : ParseResult) (a b : Records) :
    push (push st a) b = push st (a.app b) := by
  simp [push, Records.app]

/-- The stateful visitor equals the incoming report with the pure record
collection appended: `visit_item` only ever appends records, in preorder. -/
theorem visit_item_push : ∀ (st : ParseResult) (i : Item),
    visit_item st i = push st (rec_item i) := by
  apply visit_item.induct
    (fun st i => visit_item st i = push st (rec_item i))
    (fun st l => visit_items st l = push st (rec_items l))
    (fun st l => visit_impl_items st l = push st (rec_impl_items l))
    (fun st l => visit_stmts st l = push st (rec_stmts l))
    (fun st l => visit_trait_items st l = push st (rec_trait_items l))
  all_goals
    intros
    simp_all [visit_item, visit_items, visit_stmts, visit_impl_items,
      visit_trait_items, rec_item, rec_items, rec_stmts, rec_impl_items,
      rec_trait_items, push, Records.app, Records.empty, List.append_assoc]

/-- List-level version of `visit_item_push`. -/
theorem visit_items_push (l : List Item) : ∀ st : ParseResult,
    visit_items st l = push st (rec_items l) := by
  induction l with
  | nil => intro st; rw [visit_items, rec_items, push_empty]
  | cons i rest ih =>
      intro st
      rw [visit_items, visit_item_push, ih, push_push, rec_items]

/-- On parse success the whole analysis is: classify, then append the pure
record collection of the tree to the fresh report. -/
theorem parse_rust_file_ok (source : String) (f : SynFile) :
    parse_rust_file source (Except.ok f) =
      push { functions := [], structs := [], traits := [], impl_blocks := [],
             unsafe_blocks := [], attributes := [], uses := [],
             contract_type := detect_contract_type source, errors := [] }
        (rec_items f.items) := by
  rw [parse_rust_file]
  simp only [RustVisitor_new, visit_file]
  rw [visit_items_push]

/- ### Every record is built with the sentinel span (1, 1) -/

/-- Every record of a collection carries the sentinel span `(1, 1)`. -/
def LinesOK (rs : Records) : Prop :=
  (∀ r ∈ rs.functions, r.line_start = 1 ∧ r.line_end = 1) ∧
  (∀ r ∈ rs.structs, r.line_start = 1 ∧ r.line_end = 1) ∧
  (∀ r ∈ rs.traits, r.line_start = 1 ∧ r.line_end = 1) ∧
  (∀ r ∈ rs.impl_blocks, r.line_start = 1 ∧ r.line_end = 1)

/-- The empty collection has sentinel spans. -/
theorem linesOK_empty : LinesOK Records.empty := by
  simp [LinesOK, Records.empty]

/-- Sentinel spans are preserved by concatenation. -/
theorem linesOK_app {a b : Records} (ha : LinesOK a) (hb : LinesOK b) :
    LinesOK (a.app b) := by
  obtain ⟨ha1, ha2, ha3, ha4⟩ := ha
  obtain ⟨hb1, hb2, hb3, hb4⟩ := hb
  refine ⟨fun r h => ?_, fun r h => ?_, fun r h => ?_, fun r h => ?_⟩
  · rcases List.mem_append.mp h with h1 | h1
    exacts [ha1 r h1, hb1 r h1]
  · rcases List.mem_append.mp h with h1 | h1
    exacts [ha2 r h1, hb2 r h1]
  · rcases List.mem_append.mp h with h1 | h1
    exacts [ha3 r h1, hb3 r h1]
  · rcases List.mem_append.mp h with h1 | h1
    exacts [ha4 r h1, hb4 r h1]

/-- A single function record has the sentinel span. -/
theorem linesOK_fn (attrs : List String) (vis : Visibility) (sig : FnSig) :
    LinesOK { Records.empty with functions := [fn_record attrs vis sig] } := by
  simp [LinesOK, Records.empty, fn_record, get_line_numbers]

/-- A single struct record has the sentinel span. -/
theorem linesOK_struct (attrs : List String) (vis : Visibility) (n : String) (fs : Fields) :
    LinesOK { Records.empty with structs := [struct_record attrs vis n fs] } := by
  simp [LinesOK, Records.empty, struct_record, get_line_numbers]

/-- A single trait record has the sentinel span. -/
theorem linesOK_trait (attrs : List String) (vis : Visibility) (n : String) (its : List TraitItem) :
    LinesOK { Records.empty with traits := [trait_record attrs vis n its] } := by
  simp [LinesOK, Records.empty, trait_record, get_line_numbers]

/-- A single impl record has the sentinel span. -/
theorem linesOK_impl (attrs : List String) (tp : Option String) (selfTy : String)
    (its : List ImplItem) :
    LinesOK { Records.empty with impl_blocks := [impl_record attrs tp selfTy its] } := by
  simp [LinesOK, Records.empty, impl_record, get_line_numbers]

/-- A use entry constrains no spans. -/
theorem linesOK_use (t : String) :
    LinesOK { Records.empty with uses := [t] } := by
  simp [LinesOK, Records.empty]

/-- All four record kinds produced by `rec_item` carry the sentinel span. -/
theorem rec_item_lines : ∀ i : Item, LinesOK (rec_item i) := by
  apply rec_item.induct
    (fun i => LinesOK (rec_item i))
    (fun l => LinesOK (rec_items l))
    (fun l => LinesOK (rec_impl_items l))
    (fun l => LinesOK (rec_stmts l))
    (fun l => LinesOK (rec_trait_items l))
  all_goals intros
  all_goals simp only [rec_item, rec_items, rec_stmts, rec_impl_items, rec_trait_items]
  all_goals first
    | exact linesOK_empty
    | assumption
    | exact linesOK_struct _ _ _ _
    | exact linesOK_use _
    | (apply linesOK_app <;>
        first
          | assumption
          | exact linesOK_fn _ _ _
          | exact linesOK_trait _ _ _ _
          | exact linesOK_impl _ _ _ _)

/-- List-level version of `rec_item_lines`. -/
theorem rec_items_lines (l : List Item) : LinesOK (rec_items l) := by
  induction l with
  | nil => rw [rec_items]; exact linesOK_empty
  | cons i rest ih => rw [rec_items]; exact linesOK_app (rec_item_lines i) ih

/- ### One function record per Item::Fn node -/

/-- `rec_item` yields exactly one function record per `Item::Fn` node. -/
theorem rec_item_fn_count : ∀ i : Item,
    ((rec_item i).functions).length = fn_count_item i := by
  apply rec_item.induct
    (fun i => ((rec_item i).functions).length = fn_count_item i)
    (fun l => ((rec_items l).functions).length = fn_count_items l)
    (fun l => ((rec_impl_items l).functions).length = fn_count_impl_items l)
    (fun l => ((rec_stmts l).functions).length = fn_count_stmts l)
    (fun l => ((rec_trait_items l).functions).length = fn_count_trait_items l)
  all_goals
    intros
    simp_all [rec_item, rec_items, rec_stmts, rec_impl_items, rec_trait_items,
      Records.app, Records.empty, fn_count_item, fn_count_items,
      fn_count_stmts, fn_count_impl_items, fn_count_trait_items] <;>
    omega

/-- List-level version of `rec_item_fn_count`. -/
theorem rec_items_fn_count (l : List Item) :
    ((rec_items l).functions).length = fn_count_items l := by
  induction l with
  | nil => rw [rec_items, fn_count_items]; rfl
  | cons i rest ih =>
      rw [rec_items, fn_count_items]
      simp [Records.app, rec_item_fn_count, ih]

/-- The parameter list of a function record lists exactly the simple
identifier-bound parameters, by name and in declaration order. -/
theorem fn_record_param_names (attrs : List String) (vis : Visibility) (sig : FnSig) :
    ((fn_record attrs vis sig).parameters).map ParsedParameter.name =
      ident_param_names sig.inputs := by
  show ((sig.inputs.filterMap param_of_arg).map ParsedParameter.name) = _
  induction sig.inputs with
  | nil => rfl
  | cons a rest ih =>
      cases a with
      | receiver t => simpa [param_of_arg, ident_param_names, List.filterMap_cons] using ih
      | typed pat ty =>
          cases pat with
          | ident n m =>
              simpa [param_of_arg, ident_param_names, List.filterMap_cons] using ih
          | other t => simpa [param_of_arg, ident_param_names, List.filterMap_cons] using ih

/- ### Helper lemmas for struct field shapes -/

/-- `filter_map` over an optional identifier keeps every element when all
identifiers are present. -/
theorem filterMap_ident_length {β : Type} (g : SynField → String → β) :
    ∀ fs : List SynField, (∀ f ∈ fs, f.ident.isSome = true) →
      (fs.filterMap (fun f => f.ident.map (g f))).length = fs.length := by
  intro fs
  induction fs with
  | nil => intro _; rfl
  | cons f rest ih =>
      intro h
      rcases Option.isSome_iff_exists.mp (h f (List.mem_cons_self f rest)) with ⟨a, ha⟩
      simp [List.filterMap_cons, ha, ih (fun x hx => h x (List.mem_cons_of_mem f hx))]

/-- The classifier written with the marker-set predicates: the same
expression, condition for condition. -/
theorem detect_contract_type_markers (t : String) :
    detect_contract_type t =
      if ink_marked t then "ink"
      else if cosmwasm_marked t then "cosmwasm"
      else if anchor_marked t then "anchor"
      else if near_marked t then "near"
      else "generic" := rfl

/- ### The claims -/

/-- Claim C1, counterexample: a source text that contains the ink marker
`ink_lang` but fails to parse gets `contract_type` `"unknown"`, not
`"ink"` - the failure arm of `parse_rust_file` overwrites the classifier's
label, so the label in the report is NOT produced from the raw text when
parsing fails. -/
theorem contract_type_parse_failure_cex :
    ink_marked "fn main( ink_lang" = true ∧
    (parse_rust_file "fn main( ink_lang" (Except.error "expected item")).contract_type = "unknown" ∧
    (parse_rust_file "fn main( ink_lang" (Except.error "expected item")).contract_type ≠ "ink" := by
  refine ⟨by decide, rfl, by decide⟩

/-- Claim C1 (amended): when parsing succeeds, the report's label depends
only on the raw text and a source containing an ink marker is labelled
`"ink"`; when parsing fails the label is forced to `"unknown"` regardless
of the markers in the text. -/
theorem contract_type_amended (source : String) (ast : SynFile) (e : String)
    (h : ink_marked source = true) :
    (parse_rust_file source (Except.ok ast)).contract_type = "ink" ∧
    (parse_rust_file source (Except.error e)).contract_type = "unknown" := by
  constructor
  · rw [parse_rust_file_ok]
    simp only [push]
    rw [detect_contract_type_markers, if_pos h]
  · rfl

/-- Witness for `contract_type_amended` at the concrete marker source
`"ink_lang"` and the empty tree. -/
theorem contract_type_amended_witness :
    (parse_rust_file "ink_lang" (Except.ok empty_file)).contract_type = "ink" ∧
    (parse_rust_file "ink_lang" (Except.error "boom")).contract_type = "unknown" :=
  contract_type_amended "ink_lang" empty_file "boom" (by decide)

/-- Claim C2: on any parse failure the analysis still returns a report:
all five record lists empty, the reserved fields empty, `contract_type`
forced to `"unknown"`, and exactly one error entry, prefixed
`"Parse error: "`. -/
theorem parse_failure_report (source e : String) :
    parse_rust_file source (Except.error e) =
      { functions := [], structs := [], traits := [], impl_blocks := [],
        unsafe_blocks := [], attributes := [], uses := [],
        contract_type := "unknown", errors := ["Parse error: " ++ e] } := rfl

/-- Claim C3, counterexample: `impl Foo { fn bar() {} }` contains one
function declaration in the claim's sense (methods inside implementation
blocks included), yet the report's functions list is empty - methods are
`ImplItem::Fn`, never dispatched to `visit_item_fn`. -/
theorem functions_impl_methods_cex :
    claim_fn_count_items impl_only_file.items = 1 ∧
    ((parse_rust_file "" (Except.ok impl_only_file)).functions).length = 0 ∧
    ¬ ((parse_rust_file "" (Except.ok impl_only_file)).functions).length =
        claim_fn_count_items impl_only_file.items := by
  refine ⟨?_, ?_, ?_⟩
  · simp [impl_only_file, claim_fn_count_items, claim_fn_count_item,
      claim_fn_count_impl_items, claim_fn_count_stmts]
  · rw [parse_rust_file_ok]
    simp [push, impl_only_file, rec_items, rec_item, rec_impl_items, rec_stmts,
      Records.app, Records.empty]
  · rw [parse_rust_file_ok]
    simp [push, impl_only_file, rec_items, rec_item, rec_impl_items, rec_stmts,
      Records.app, Records.empty, claim_fn_count_items, claim_fn_count_item,
      claim_fn_count_impl_items, claim_fn_count_stmts]

/-- Claim C3 (amended): for every syntactically valid input the functions
list is exactly the preorder record collection of the tree's free
`Item::Fn` nodes (top level, nested in modules, or nested in function
bodies) - one entry per such node - and each record preserves parameter
order (simple identifier parameters, by name) and reads the async/unsafe
flags from the signature.  Methods of impl blocks and interface bodies are
not in this list. -/
theorem functions_list_amended (source : String) (f : SynFile) :
    (parse_rust_file source (Except.ok f)).functions = (rec_items f.items).functions ∧
    ((parse_rust_file source (Except.ok f)).functions).length = fn_count_items f.items ∧
    (∀ (attrs : List String) (vis : Visibility) (sig : FnSig),
      ((fn_record attrs vis sig).parameters).map ParsedParameter.name =
        ident_param_names sig.inputs ∧
      (fn_record attrs vis sig).is_async = sig.asyncness ∧
      ParsedFunction.is_unsafe (fn_record attrs vis sig) = sig.unsafety) := by
  refine ⟨?_, ?_, fun attrs vis sig => ⟨fn_record_param_names attrs vis sig, rfl, rfl⟩⟩
  · rw [parse_rust_file_ok]
    simp [push]
  · rw [parse_rust_file_ok]
    simp [push, rec_items_fn_count]

/-- Claim C4 (code bug), evaluated at the failing input `impl Foo { }`:
`quote!(#node.self_ty)` interpolates the whole impl block and then appends
the literal tokens `. self_ty`, so `target_type` is the rendered block
followed by " . self_ty" - not the literal text `"Foo"` of the
implementing type that the field name and the spec promise. -/
theorem impl_target_type_bug_eval :
    (impl_record [] none "Foo" []).target_type = "impl Foo { } . self_ty" ∧
    (impl_record [] none "Foo" []).target_type ≠ "Foo" ∧
    (impl_record [] none "Foo" []).trait_name = none ∧
    (impl_record [] none "Foo" []).methods = [] := by
  refine ⟨?_, ?_, rfl, rfl⟩
  · simp only [impl_record, renderItem, renderImplItems]
    decide
  · simp only [impl_record, renderItem, renderImplItems]
    decide

/-- Claim C5 (code bug), evaluated at the failing input
`fn get_balance(&self, account: AccountId) -> Balance`:
`quote!(#pat_type.ty)` interpolates the whole `account : AccountId` node
and then appends the literal tokens `. ty`, so the recorded `param_type`
is `"account : AccountId . ty"`, not the declared type's literal text
`"AccountId"`.  Name, mutability, return type and the flags are as the
claim states. -/
theorem param_type_bug_eval :
    (fn_record [] Visibility.inherited get_balance_sig).parameters =
      [{ name := "account", param_type := "account : AccountId . ty", is_mutable := false }] ∧
    "account : AccountId . ty" ≠ "AccountId" ∧
    (fn_record [] Visibility.inherited get_balance_sig).return_type = some "Balance" ∧
    (fn_record [] Visibility.inherited get_balance_sig).is_async = false ∧
    ParsedFunction.is_unsafe (fn_record [] Visibility.inherited get_balance_sig) = false := by
  refine ⟨by decide, by decide, rfl, rfl, rfl⟩

/-- Claim C6: the classifier is a total function over strings into the
closed label set, tests the marker sets in the code's fixed priority order
(first match wins), falls back to `"generic"` - also on the empty string -
and, being a pure function, is trivially deterministic. -/
theorem detect_contract_type_total (s : String) :
    detect_contract_type "" = "generic" ∧
    (detect_contract_type s = "ink" ∨ detect_contract_type s = "cosmwasm" ∨
      detect_contract_type s = "anchor" ∨ detect_contract_type s = "near" ∨
      detect_contract_type s = "generic") ∧
    (ink_marked s = true → detect_contract_type s = "ink") ∧
    (ink_marked s = false → cosmwasm_marked s = true → detect_contract_type s = "cosmwasm") ∧
    (ink_marked s = false → cosmwasm_marked s = false → anchor_marked s = true →
      detect_contract_type s = "anchor") ∧
    (ink_marked s = false → cosmwasm_marked s = false → anchor_marked s = false →
      near_marked s = true → detect_contract_type s = "near") ∧
    (ink_marked s = false → cosmwasm_marked s = false → anchor_marked s = false →
      near_marked s = false → detect_contract_type s = "generic") := by
  refine ⟨by decide, ?_, ?_, ?_, ?_, ?_, ?_⟩
  · rw [detect_contract_type_markers]
    split_ifs <;> simp
  · intro h1
    rw [detect_contract_type_markers]
    simp [h1]
  · intro h1 h2
    rw [detect_contract_type_markers]
    simp [h1, h2]
  · intro h1 h2 h3
    rw [detect_contract_type_markers]
    simp [h1, h2, h3]
  · intro h1 h2 h3 h4
    rw [detect_contract_type_markers]
    simp [h1, h2, h3, h4]
  · intro h1 h2 h3 h4
    rw [detect_contract_type_markers]
    simp [h1, h2, h3, h4]

/-- Witness for `detect_contract_type_total`: the fourth marker set
matched (and the first three absent) yields `"near"`. -/
theorem detect_contract_type_total_witness :
    detect_contract_type "near_sdk" = "near" :=
  (detect_contract_type_total "near_sdk").2.2.2.2.2.1
    (by decide) (by decide) (by decide) (by decide)

/-- Claim C7: the visibility mapping is total over the three recognized
modifier shapes, maps them to `"pub"`, `"pub(restricted)"` and
`"private"` respectively, and never produces a fourth value. -/
theorem visibility_to_string_total (v : Visibility) :
    visibility_to_string Visibility.pub = "pub" ∧
    (∀ p : String, visibility_to_string (Visibility.restricted p) = "pub(restricted)") ∧
    visibility_to_string Visibility.inherited = "private" ∧
    (visibility_to_string v = "pub" ∨ visibility_to_string v = "pub(restricted)" ∨
      visibility_to_string v = "private") := by
  refine ⟨rfl, fun p => rfl, rfl, ?_⟩
  cases v <;> simp [visibility_to_string]

/-- Claim C8: a named-field structure yields one field record per field
preserving declared names (in order); a positional structure with n fields
yields exactly n records named `field_0 ... field_(n-1)` in increasing
index order; a unit structure yields no field records. -/
theorem struct_record_field_shapes (attrs : List String) (vis : Visibility) (n : String)
    (fs : List SynField) :
    ((∀ f ∈ fs, f.ident.isSome = true) →
      ((struct_record attrs vis n (Fields.named fs)).fields).length = fs.length) ∧
    ((struct_record attrs vis n (Fields.named fs)).fields).map ParsedField.name =
      fs.filterMap SynField.ident ∧
    ((struct_record attrs vis n (Fields.unnamed fs)).fields).map ParsedField.name =
      (List.range fs.length).map (fun i => "field_" ++ toString i) ∧
    (struct_record attrs vis n Fields.unit).fields = [] := by
  refine ⟨?_, ?_, ?_, rfl⟩
  · intro h
    show ((fs.filterMap _).length = fs.length)
    exact filterMap_ident_length _ fs h
  · show ((fs.filterMap _).map ParsedField.name = fs.filterMap SynField.ident)
    induction fs with
    | nil => rfl
    | cons f rest ih => cases hf : f.ident <;> simp [List.filterMap_cons, hf, ih]
  · show ((fs.enum.map _).map ParsedField.name =
      (List.range fs.length).map (fun i => "field_" ++ toString i))
    rw [List.map_map]
    rw [show ((ParsedField.name ∘ fun p : Nat × SynField =>
        ({ name := "field_" ++ toString p.1,
           field_type := renderField p.2 ++ " . ty",
           visibility := visibility_to_string p.2.vis } : ParsedField)) =
      (fun i => "field_" ++ toString i) ∘ Prod.fst) from rfl]
    rw [← List.map_map, List.enum_map_fst]

/-- Witness for `struct_record_field_shapes`: a one-field named structure
has exactly one field record. -/
theorem struct_record_field_shapes_witness :
    ((struct_record [] Visibility.pub "Vault"
      (Fields.named [{ ident := some "owner", vis := Visibility.pub, ty := "AccountId" }])).fields).length = 1 :=
  (struct_record_field_shapes [] Visibility.pub "Vault"
    [{ ident := some "owner", vis := Visibility.pub, ty := "AccountId" }]).1 (by decide)

/-- Claim C9: whatever the parse outcome, the emitted report's
`unsafe_blocks` and top-level `attributes` fields are empty - no visitor
arm ever appends to either. -/
theorem reserved_fields_empty (source : String) (res : Except String SynFile) :
    (parse_rust_file source res).unsafe_blocks = [] ∧
    (parse_rust_file source res).attributes = [] := by
  cases res with
  | ok f =>
      rw [parse_rust_file_ok]
      exact ⟨rfl, rfl⟩
  | error e => exact ⟨rfl, rfl⟩

/-- Claim C10: every record in the report - function, struct, trait or
impl, on success or failure - carries the sentinel span
`line_start = line_end = 1`, because `get_line_numbers` returns `(1, 1)`
unconditionally. -/
theorem sentinel_spans (source : String) (res : Except String SynFile) :
    (∀ r ∈ (parse_rust_file source res).functions, r.line_start = 1 ∧ r.line_end = 1) ∧
    (∀ r ∈ (parse_rust_file source res).structs, r.line_start = 1 ∧ r.line_end = 1) ∧
    (∀ r ∈ (parse_rust_file source res).traits, r.line_start = 1 ∧ r.line_end = 1) ∧
    (∀ r ∈ (parse_rust_file source res).impl_blocks, r.line_start = 1 ∧ r.line_end = 1) := by
  cases res with
  | ok f =>
      rw [parse_rust_file_ok]
      have h := rec_items_lines f.items
      obtain ⟨h1, h2, h3, h4⟩ := h
      refine ⟨?_, ?_, ?_, ?_⟩ <;>
        simp only [push, List.nil_append]
      · exact h1
      · exact h2
      · exact h3
      · exact h4
  | error e =>
      refine ⟨?_, ?_, ?_, ?_⟩ <;> intro r h <;> simp [parse_rust_file] at h

/-- Witness for `sentinel_spans`: the record of the scenario-A function in
a one-function file has the sentinel span. -/
theorem sentinel_spans_witness :
    (fn_record [] Visibility.inherited get_balance_sig).line_start = 1 ∧
    (fn_record [] Visibility.inherited get_balance_sig).line_end = 1 :=
  (sentinel_spans "" (Except.ok one_fn_file)).1
    (fn_record [] Visibility.inherited get_balance_sig)
    (by rw [parse_rust_file_ok]
        simp [push, one_fn_file, rec_items, rec_item, rec_stmts, Records.app,
          Records.empty])

end Quard
